import Mathlib

/-!
Shallow embedding of the `langgraph-social-media-creator` content pipeline
(`content_creator/nodes.py`, `llm_integration.py`, `enhanced_workflow.py`).

Text is modelled as `List Char` (one entry per Unicode code point, matching
Python `len`/indexing on `str`).  Case conversion is modelled ASCII-only,
which covers every string constant appearing in the program.  Randomness
(`random.choice`, `random.sample`) is modelled by explicit choice
parameters, constrained in the theorems to exactly the values the random
primitives can produce.
-/

abbrev Str := List Char

/-- Convenience: turn a Lean string literal into the `List Char` model. -/
def toL (s : String) : Str := s.toList

/-- Convenience: turn a list of string literals into the model. -/
def toLs (l : List String) : List Str := l.map String.toList

/-- ASCII lower-casing of one character (models Python `str.lower` on the
ASCII alphabet; all constants in the program are ASCII). -/
def asciiLower (c : Char) : Char :=
  match c with
  | 'A' => 'a' | 'B' => 'b' | 'C' => 'c' | 'D' => 'd' | 'E' => 'e'
  | 'F' => 'f' | 'G' => 'g' | 'H' => 'h' | 'I' => 'i' | 'J' => 'j'
  | 'K' => 'k' | 'L' => 'l' | 'M' => 'm' | 'N' => 'n' | 'O' => 'o'
  | 'P' => 'p' | 'Q' => 'q' | 'R' => 'r' | 'S' => 's' | 'T' => 't'
  | 'U' => 'u' | 'V' => 'v' | 'W' => 'w' | 'X' => 'x' | 'Y' => 'y'
  | 'Z' => 'z' | other => other

/-- ASCII upper-casing of one character (models Python `str.upper` on the
ASCII alphabet). -/
def asciiUpper (c : Char) : Char :=
  match c with
  | 'a' => 'A' | 'b' => 'B' | 'c' => 'C' | 'd' => 'D' | 'e' => 'E'
  | 'f' => 'F' | 'g' => 'G' | 'h' => 'H' | 'i' => 'I' | 'j' => 'J'
  | 'k' => 'K' | 'l' => 'L' | 'm' => 'M' | 'n' => 'N' | 'o' => 'O'
  | 'p' => 'P' | 'q' => 'Q' | 'r' => 'R' | 's' => 'S' | 't' => 'T'
  | 'u' => 'U' | 'v' => 'V' | 'w' => 'W' | 'x' => 'X' | 'y' => 'Y'
  | 'z' => 'Z' | other => other

/-- Python `s.lower()`. -/
def pyLower (s : Str) : Str := s.map asciiLower

/-- Python substring test `needle in hay`: the needle occurs at the start of
the haystack or inside its tail. -/
def pyContains (hay needle : Str) : Bool :=
  List.isPrefixOf needle hay ||
    match hay with
    | [] => false
    | _ :: t => pyContains t needle

/-- Python `s.strip()` (trim whitespace at both ends). -/
def pyStrip (s : Str) : Str :=
  ((s.dropWhile Char.isWhitespace).reverse.dropWhile Char.isWhitespace).reverse

/-- Python slice `l[:n]` where `n` may be negative (`l[:-k]` drops the last
`k` elements; a stop clamped below zero yields `[]`). -/
def pySlice (l : List α) (n : Int) : List α :=
  if 0 ≤ n then l.take n.toNat else l.take ((l.length : Int) + n).toNat

/-- Helper for Python `s.split()`: `acc` holds the word currently being
scanned; whitespace closes it (empty words are discarded). -/
def pyWordsAux : Str → Str → List Str
  | [], acc => if acc = [] then [] else [acc]
  | c :: cs, acc =>
      if c.isWhitespace then
        if acc = [] then pyWordsAux cs [] else acc :: pyWordsAux cs []
      else pyWordsAux cs (acc ++ [c])

/-- Python `s.split()`: split on runs of whitespace, discarding empties. -/
def pyWords (s : Str) : List Str := pyWordsAux s []

/-- Python `" ".join(ws)`. -/
def joinSpace (ws : List Str) : Str := List.intercalate [' '] ws

/-- Python `s.split(" ")` on the single space character. -/
def splitSpace (s : Str) : List Str := s.splitOn ' '

/-- Python `word.capitalize()`: first character upper-cased, the rest
lower-cased. -/
def pyCapitalize (w : Str) : Str :=
  match w with
  | [] => []
  | c :: cs => asciiUpper c :: cs.map asciiLower

/-- Helper for `dict.fromkeys(l)`: keep elements not yet in `seen`. -/
def dedupFirstAux : List Str → List Str → List Str
  | [], _ => []
  | a :: l, seen =>
      if a ∈ seen then dedupFirstAux l seen else a :: dedupFirstAux l (a :: seen)

/-- Python `dict.fromkeys(l)` key extraction: deduplicate keeping the first
occurrence of each element, preserving order. -/
def dedupFirst (l : List Str) : List Str := dedupFirstAux l []

/-- Python `word.startswith("#")`. -/
def startsHash (w : Str) : Bool :=
  match w with
  | '#' :: _ => true
  | _ => false

/-- A regex `\w` character: letters, digits or underscore (ASCII model). -/
def isWordChar (c : Char) : Bool := c.isAlphanum || c = '_'

/-- All matches of the regex `#\w+` in a text, in order (models
`re.findall(r'#\w+', s)`).  The scan may recurse on the tail instead of
skipping the matched word because word characters are never `#`, so no
additional match can start inside a matched word. -/
def findHashtagMatches : Str → List Str
  | [] => []
  | c :: rest =>
      if c = '#' ∧ rest.takeWhile isWordChar ≠ [] then
        ('#' :: rest.takeWhile isWordChar) :: findHashtagMatches rest
      else
        findHashtagMatches rest

/-! ## Static pools (`content_creator/nodes.py`) -/

/-- Curated topic pool bound to the `"Fitness"` category key. -/
def fitnessTopics : List Str := toLs [
  "Morning Workout Routines", "Healthy Breakfast Ideas", "Office Stretches",
  "Quick Lunch Workouts", "Evening Relaxation Techniques", "Weekend Fitness Challenges",
  "Desk Yoga Poses", "Healthy Snack Ideas", "Posture Correction Exercises",
  "Lunch Break Walks", "Stair Workout Ideas", "Healthy Meal Prep Tips",
  "Standing Desk Exercises", "Mindfulness Practices", "Hydration Tips",
  "Quick Stretches for Back Pain", "Healthy Takeout Options", "Sleep Improvement Tips",
  "Stress Relief Exercises", "Healthy Dessert Recipes", "Commute Workout Ideas",
  "Healthy Grocery List", "Quick Workout for Busy Days", "Healthy Meal Swaps",
  "Deskercise Routines", "Healthy Office Snacks", "Lunch Break Meditation",
  "Healthy Drink Recipes", "Weekend Fitness Goals", "Recovery Techniques"]

/-- Curated topic pool bound to the `"Mental"` category key. -/
def mentalTopics : List Str := toLs [
  "Daily Mindfulness Practices", "Stress Management Techniques", "Anxiety Coping Strategies",
  "Self-Care Sunday Ideas", "Meditation for Beginners", "Journaling Prompts",
  "Breathing Exercises", "Digital Detox Tips", "Positive Affirmations",
  "Sleep Hygiene Habits", "Gratitude Practice", "Boundary Setting",
  "Emotional Regulation", "Mindful Eating", "Nature Therapy Benefits",
  "Social Connection Tips", "Creative Expression", "Time Management",
  "Perfectionism Recovery", "Self-Compassion Exercises", "Mindful Communication",
  "Workplace Wellness", "Seasonal Affective Disorder", "Therapy Benefits",
  "Mental Health Myths", "Crisis Resources", "Support System Building",
  "Mindful Movement", "Cognitive Behavioral Techniques", "Mental Health First Aid"]

/-- Curated topic pool bound to the `"Business"` category key. -/
def businessTopics : List Str := toLs [
  "Morning Productivity Routines", "Time Management Hacks", "Networking Strategies",
  "Leadership Development", "Team Building Activities", "Goal Setting Frameworks",
  "Communication Skills", "Presentation Tips", "Email Etiquette",
  "Remote Work Best Practices", "Meeting Efficiency", "Delegation Techniques",
  "Conflict Resolution", "Innovation Strategies", "Customer Service Excellence",
  "Brand Building Tips", "Social Media Marketing", "Content Creation Ideas",
  "Financial Planning", "Investment Basics", "Entrepreneurship Mindset",
  "Work-Life Balance", "Professional Development", "Industry Trends",
  "Negotiation Skills", "Project Management", "Digital Marketing",
  "Sales Techniques", "Client Relationship Management", "Strategic Planning"]

/-- Curated topic pool bound to the `"Technology"` category key. -/
def technologyTopics : List Str := toLs [
  "AI Tools for Productivity", "Cybersecurity Best Practices", "Cloud Computing Benefits",
  "Mobile App Development", "Web Design Trends", "Data Privacy Tips",
  "Social Media Security", "Digital Minimalism", "Tech for Seniors",
  "Automation Tools", "Programming Languages", "Tech Career Paths",
  "Gadget Reviews", "Software Recommendations", "Tech News Updates",
  "Digital Wellness", "Online Learning Platforms", "Tech Troubleshooting",
  "Future Tech Predictions", "Startup Tech Stack", "Open Source Tools",
  "Tech Accessibility", "Green Technology", "Blockchain Basics",
  "IoT Applications", "Virtual Reality Uses", "Machine Learning Intro",
  "Tech Ethics", "Digital Transformation", "Tech Community Building"]

/-- The `themes` dictionary of `generate_topic_ideas`, in insertion order. -/
def themesMap : List (Str × List Str) :=
  [(toL "Fitness", fitnessTopics), (toL "Mental", mentalTopics),
   (toL "Business", businessTopics), (toL "Technology", technologyTopics)]

/-- The generic `base_topics` fallback list (30 entries). -/
def baseTopics : List Str := toLs [
  "Getting Started Guide", "Common Mistakes to Avoid", "Expert Tips",
  "Best Practices", "Tools and Resources", "Success Stories",
  "Troubleshooting Guide", "Advanced Techniques", "Industry Insights",
  "Trends and Updates", "Community Spotlight", "Q&A Session",
  "Behind the Scenes", "Case Study", "Tutorial Tuesday",
  "Myth Busting", "Quick Tips", "Deep Dive Analysis",
  "Beginner\x27s Guide", "Pro Tips", "Weekly Roundup",
  "How-To Guide", "Comparison Review", "Future Predictions",
  "Personal Experience", "Lessons Learned", "Resource Recommendations",
  "Community Discussion", "Expert Interview", "Reflection Friday"]

/-- The `theme_hashtags` dictionary of `generate_hashtags`, in insertion
order (keys are already lower-case in the source). -/
def themeHashtagPools : List (Str × List Str) :=
  [(toL "fitness", toLs ["FitnessMotivation", "HealthyLifestyle", "WorkoutTips",
                         "FitLife", "HealthyHabits", "WellnessJourney"]),
   (toL "mental", toLs ["MentalHealthMatters", "SelfCare", "Mindfulness",
                        "WellnessWednesday", "MentalWellness", "SelfLove"]),
   (toL "business", toLs ["BusinessTips", "Entrepreneurship", "Leadership",
                          "ProductivityHacks", "BusinessGrowth", "Success"]),
   (toL "technology", toLs ["TechTips", "Innovation", "DigitalLife",
                            "TechTrends", "FutureTech", "TechCommunity"])]

/-- The `general_hashtags` pool of `generate_hashtags` (8 tokens). -/
def generalHashtags : List Str :=
  toLs ["Motivation", "Tips", "Growth", "Success", "Community",
        "Inspiration", "Goals", "Progress"]

/-! ## Topic sequencing (`generate_topic_ideas`) -/

/-- The theme-classification loop of `generate_topic_ideas`: the first
`(key, pool)` entry of the `themes` dictionary whose lower-cased key is a
substring of the lower-cased theme.  (In the source the loop stores only the
key and re-indexes the dictionary; the two lookups always agree.) -/
def findTheme (theme : Str) : Option (Str × List Str) :=
  themesMap.find? (fun kv => pyContains (pyLower theme) (pyLower kv.1))

/-- The `while len(topics) < num_days` loop of `generate_topic_ideas`:
repeatedly extend `topics` with `pool[:num_days - len(topics)]`.  The
`pool ≠ []` guard only rules out the divergence the source would exhibit on
an empty pool; every pool in `themesMap` has 30 entries. -/
def cycleExtend (pool : List Str) (numDays : Int) (topics : List Str) : List Str :=
  if h : (topics.length : Int) < numDays ∧ pool ≠ [] then
    cycleExtend pool numDays (topics ++ pySlice pool (numDays - topics.length))
  else topics
termination_by numDays.toNat - topics.length
decreasing_by
  have hlen : topics.length < numDays.toNat := by omega
  have hpos : 0 < (pySlice pool (numDays - topics.length)).length := by
    have hp : 0 < pool.length := List.length_pos.mpr h.2
    unfold pySlice
    rw [if_pos (by omega)]
    simp [List.length_take]
    omega
  simp only [List.length_append]
  omega

/-- `generate_topic_ideas(theme, num_days)` from `content_creator/nodes.py`. -/
def generate_topic_ideas (theme : Str) (numDays : Int) : List Str :=
  match findTheme theme with
  | some kv =>
      let topics := pySlice kv.2 numDays
      pySlice (cycleExtend kv.2 numDays topics) numDays
  | none =>
      (List.range numDays.toNat).map (fun i =>
        theme ++ toL ": " ++ baseTopics.getD (i % baseTopics.length) [])

/-! ## Caption synthesis (`generate_caption`) -/

/-- The fixed pool of 12 caption templates of `generate_caption`, indexed by
which template `random.choice` selects.  Each template interpolates `topic`
and (for all but index 3) the lower-cased theme; index 3 interpolates the
theme with spaces removed instead. -/
def captionTemplate (topic theme : Str) : Fin 12 → Str
  | 0 => toL "💡 " ++ topic ++ toL ": Your " ++ pyLower theme ++
         toL " game-changer! Ready to level up? Let\x27s dive in! 🚀"
  | 1 => toL "🌟 Today\x27s spotlight: " ++ topic ++
         toL ". Small steps, big results in your " ++ pyLower theme ++ toL " journey! ✨"
  | 2 => toL "🔥 " ++ topic ++ toL " - the secret sauce to crushing your " ++
         pyLower theme ++ toL " goals! Who\x27s ready to try this? 💪"
  | 3 => toL "✨ Transform your routine with " ++ topic ++
         toL "! Your future self will thank you 🙏 #" ++ theme.filter (fun c => c ≠ ' ')
  | 4 => toL "🎯 Focus Friday: " ++ topic ++ toL ". Because consistency in " ++
         pyLower theme ++ toL " creates magic! ✨"
  | 5 => toL "💪 " ++ topic ++ toL " isn\x27t just a tip - it\x27s your pathway to " ++
         pyLower theme ++ toL " success! Let\x27s go! 🚀"
  | 6 => toL "🌱 Growing stronger every day with " ++ topic ++ toL ". Your " ++
         pyLower theme ++ toL " journey matters! 💚"
  | 7 => toL "⚡ Power up your " ++ pyLower theme ++ toL " with " ++ topic ++
         toL "! Simple changes, powerful results 🔥"
  | 8 => toL "🎉 Celebrating progress with " ++ topic ++
         toL "! Every step counts in your " ++ pyLower theme ++ toL " story 📈"
  | 9 => toL "🧠 Smart strategy: " ++ topic ++ toL ". Work smarter, not harder in your " ++
         pyLower theme ++ toL " journey! 💡"
  | 10 => toL "🌈 Brighten your day with " ++ topic ++ toL "! Making " ++
          pyLower theme ++ toL " fun and sustainable 😊"
  | 11 => toL "⭐ Pro tip: " ++ topic ++ toL " is your secret weapon for " ++
          pyLower theme ++ toL " success! Ready to shine? ✨"

/-- `generate_caption(topic, theme)`: `random.choice` over the 12 templates,
modelled by the explicit `choice` parameter. -/
def generate_caption (topic theme : Str) (choice : Fin 12) : Str :=
  captionTemplate topic theme choice

/-! ## Hashtag synthesis (`generate_hashtags`) -/

/-- The theme-specific lookup loop of `generate_hashtags`: first entry of
`theme_hashtags` whose key occurs in the lower-cased theme. -/
def findHashtagPool (theme : Str) : Option (Str × List Str) :=
  themeHashtagPools.find? (fun kv => pyContains (pyLower theme) kv.1)

/-- The `topic_clean` CamelCase folding of `generate_hashtags`: join of
`word.capitalize()` over the words of `topic` with `-` replaced by space. -/
def topicCleanOf (topic : Str) : Str :=
  List.flatten ((pyWords (topic.map (fun c => if c = '-' then ' ' else c))).map pyCapitalize)

/-- `generate_hashtags(topic, theme)`.  The two `random.sample` draws are
modelled by `themeSample` (used only when a category key matches; the source
draws `min(2, len(pool))` distinct elements of that pool) and `genSample`
(2 distinct elements of `general_hashtags`); theorems constrain them to
exactly what `random.sample` can return. -/
def generate_hashtags (topic theme : Str) (themeSample genSample : List Str) : Str :=
  let themeTag : Str := theme.filter (fun c => c ≠ ' ')
  let topicClean : Str := topicCleanOf topic
  let base := [themeTag] ++ (if topicClean.length ≤ 20 then [topicClean] else [])
  let withTheme := base ++ (match findHashtagPool theme with
    | some _ => themeSample
    | none => [])
  let hashtags := withTheme ++ genSample
  let unique := dedupFirst
    ((hashtags.filter (fun tag => tag ≠ [] ∧ 2 < tag.length)).map (fun tag => '#' :: tag))
  joinSpace (unique.take 5)

/-! ## Rule-based pipeline (`content_generator_node`) -/

/-- One day's record of the content plan (`Day`, `Topic`, `Caption`,
`Hashtags`). -/
structure ContentEntry where
  day : Nat
  topic : Str
  caption : Str
  hashtags : Str
deriving Repr, DecidableEq

/-- The `for i, topic in enumerate(topics, start)` loop of
`content_generator_node`, with per-day random choices supplied by the
functions `cc` (caption template), `tsf`/`gsf` (hashtag samples). -/
def contentEntries (theme : Str) (cc : Nat → Fin 12) (tsf gsf : Nat → List Str) :
    Nat → List Str → List ContentEntry
  | _, [] => []
  | i, t :: rest =>
      { day := i, topic := t,
        caption := generate_caption t theme (cc i),
        hashtags := generate_hashtags t theme (tsf i) (gsf i) } ::
        contentEntries theme cc tsf gsf (i + 1) rest

/-- `content_generator_node`: builds the content plan from the state's
topics, numbering days from 1. -/
def content_generator_node (topics : List Str) (theme : Str)
    (cc : Nat → Fin 12) (tsf gsf : Nat → List Str) : List ContentEntry :=
  contentEntries theme cc tsf gsf 1 topics

/-! ## Model-backed operations (`llm_integration.py`) -/

/-- An element of the JSON array parsed out of the model response for
topics: either a JSON string or some other JSON value (the
`isinstance(topic, str)` test). -/
inductive JsonItem where
  | jstr : Str → JsonItem
  | other : JsonItem
deriving Repr, DecidableEq

/-- The `clean_topics` loop of `generate_topics_with_llm`: the stripped
JSON strings among the first `numDays` parsed items whose stripped form is
non-empty. -/
def cleanTopicsOf (numDays : Int) (items : List JsonItem) : List Str :=
  (pySlice items numDays).filterMap (fun it =>
    match it with
    | JsonItem.jstr s => if 0 < (pyStrip s).length then some (pyStrip s) else none
    | JsonItem.other => none)

/-- `generate_topics_with_llm(theme, num_days)`, from the point the model
response has been handled: `parsed = none` models every path that never
reaches the threshold test (no `[...]` match in the response, `json.loads`
failure, or a raised exception), which falls through to the rule-based
fallback.  Acceptance threshold: `len(clean_topics) >= num_days // 2`
(Python floor division). -/
def generate_topics_with_llm (theme : Str) (numDays : Int)
    (parsed : Option (List JsonItem)) : List Str :=
  match parsed with
  | none => generate_topic_ideas theme numDays
  | some items =>
      let cleanTopics := cleanTopicsOf numDays items
      if numDays.fdiv 2 ≤ (cleanTopics.length : Int) then pySlice cleanTopics numDays
      else generate_topic_ideas theme numDays

/-- `generate_caption_with_llm(topic, theme)`, from the point the model
response text is in hand; `fallback` is the rule-based caption the source
computes via `_fallback_caption`.  The source checks `len(caption) > 10`
on the stripped response BEFORE removing `#`-tokens. -/
def generate_caption_with_llm (responseText : Str) (fallback : Str) : Str :=
  let caption := pyStrip responseText
  if caption ≠ [] ∧ 10 < caption.length then
    joinSpace ((pyWords caption).filter (fun w => !startsHash w))
  else fallback

/-- `generate_hashtags_with_llm(topic, theme)`, from the point the model
response text is in hand; `fallback` is the rule-based hashtag string. -/
def generate_hashtags_with_llm (responseText : Str) (fallback : Str) : Str :=
  let hashtags := pyStrip responseText
  if hashtags ≠ [] then
    let ms := findHashtagMatches hashtags
    if 3 ≤ ms.length then joinSpace (ms.take 5) else fallback
  else fallback

/-! ## Enhanced workflow (`enhanced_workflow.py`, `_generate_with_llm`) -/

/-- The per-topic loop of `_generate_with_llm`: like `contentEntries` but
captions and hashtags go through the model-backed operations, with per-day
model responses `capResp`/`hashResp` and per-day fallback choices. -/
def llmContentEntries (theme : Str) (capResp hashResp : Nat → Str)
    (cc : Nat → Fin 12) (tsf gsf : Nat → List Str) :
    Nat → List Str → List ContentEntry
  | _, [] => []
  | i, t :: rest =>
      { day := i, topic := t,
        caption := generate_caption_with_llm (capResp i)
                     (generate_caption t theme (cc i)),
        hashtags := generate_hashtags_with_llm (hashResp i)
                      (generate_hashtags t theme (tsf i) (gsf i)) } ::
        llmContentEntries theme capResp hashResp cc tsf gsf (i + 1) rest

/-- `_generate_with_llm`: model-backed topics, then one ContentEntry per
topic with `Day` numbered from 1. -/
def llm_generate_plan (theme : Str) (numDays : Int) (parsed : Option (List JsonItem))
    (capResp hashResp : Nat → Str) (cc : Nat → Fin 12)
    (tsf gsf : Nat → List Str) : List ContentEntry :=
  llmContentEntries theme capResp hashResp cc tsf gsf 1
    (generate_topics_with_llm theme numDays parsed)

/-! ## Helper lemmas -/

lemma contentEntries_length (theme : Str) (cc : Nat → Fin 12) (tsf gsf : Nat → List Str) :
    ∀ (topics : List Str) (i : Nat),
      (contentEntries theme cc tsf gsf i topics).length = topics.length := by
  intro topics
  induction topics with
  | nil => intro i; rfl
  | cons t rest ih => intro i; simp [contentEntries, ih]

lemma contentEntries_get (theme : Str) (cc : Nat → Fin 12) (tsf gsf : Nat → List Str) :
    ∀ (topics : List Str) (i j : Nat) (hj : j < (contentEntries theme cc tsf gsf i topics).length),
      ((contentEntries theme cc tsf gsf i topics).get ⟨j, hj⟩).day = i + j ∧
      ((contentEntries theme cc tsf gsf i topics).get ⟨j, hj⟩).topic = topics.getD j [] := by
  intro topics
  induction topics with
  | nil => intro i j hj; simp [contentEntries] at hj
  | cons t rest ih =>
      intro i j hj
      cases j with
      | zero => simp [contentEntries]
      | succ j' =>
          have hj' : j' < (contentEntries theme cc tsf gsf (i + 1) rest).length := by
            simpa [contentEntries] using hj
          have := ih (i + 1) j' hj'
          simp only [contentEntries, List.get_cons_succ, List.getD_cons_succ]
          refine ⟨?_, this.2⟩
          rw [this.1]
          omega

lemma llmContentEntries_length (theme : Str) (capResp hashResp : Nat → Str)
    (cc : Nat → Fin 12) (tsf gsf : Nat → List Str) :
    ∀ (topics : List Str) (i : Nat),
      (llmContentEntries theme capResp hashResp cc tsf gsf i topics).length = topics.length := by
  intro topics
  induction topics with
  | nil => intro i; rfl
  | cons t rest ih => intro i; simp [llmContentEntries, ih]

lemma le_cycleExtend_length (pool : List Str) (d : Int) (topics : List Str)
    (hp : pool ≠ []) : d ≤ ((cycleExtend pool d topics).length : Int) := by
  refine cycleExtend.induct pool d
    (fun ts => d ≤ ((cycleExtend pool d ts).length : Int)) ?_ ?_ topics
  · intro x hx ih
    rw [cycleExtend, dif_pos hx]
    exact ih
  · intro x hx
    rw [cycleExtend, dif_neg hx]
    rcases not_and_or.mp hx with h1 | h2
    · omega
    · exact absurd hp h2

lemma themesMap_pool_length {kv : Str × List Str} (hkv : kv ∈ themesMap) :
    kv.2.length = 30 := by
  simp only [themesMap, List.mem_cons, List.mem_singleton, List.not_mem_nil, or_false] at hkv
  rcases hkv with h | h | h | h <;> subst h <;> decide

lemma generate_topic_ideas_length (theme : Str) (d : Int) (hd : 0 ≤ d) :
    (generate_topic_ideas theme d).length = d.toNat := by
  unfold generate_topic_ideas
  cases hft : findTheme theme with
  | none => simp
  | some kv =>
      have hmem : kv ∈ themesMap := List.mem_of_find?_eq_some hft
      have hlen : kv.2.length = 30 := themesMap_pool_length hmem
      have hne : kv.2 ≠ [] := by
        intro hc; rw [hc] at hlen; simp at hlen
      have hge := le_cycleExtend_length kv.2 d (pySlice kv.2 d) hne
      show (pySlice (cycleExtend kv.2 d (pySlice kv.2 d)) d).length = d.toNat
      rw [pySlice, if_pos hd]
      simp only [List.length_take]
      omega

/-! ## C1 -/

/-- C1: for a valid request (theme non-blank, `dayCount >= 1`) the
rule-based sequencer returns exactly `dayCount` topics and the content plan
has exactly `dayCount` entries, entry `j` carrying `Day = j + 1` and the
`j`-th topic, for every choice of the random source. -/
theorem C1_pipeline_full_length (theme : Str) (d : Int) (cc : Nat → Fin 12)
    (tsf gsf : Nat → List Str) (hne : pyStrip theme ≠ []) (hd : 1 ≤ d) :
    (generate_topic_ideas theme d).length = d.toNat ∧
    (content_generator_node (generate_topic_ideas theme d) theme cc tsf gsf).length = d.toNat ∧
    ∀ j (hj : j < (content_generator_node (generate_topic_ideas theme d) theme cc tsf gsf).length),
      ((content_generator_node (generate_topic_ideas theme d) theme cc tsf gsf).get ⟨j, hj⟩).day
        = j + 1 ∧
      ((content_generator_node (generate_topic_ideas theme d) theme cc tsf gsf).get ⟨j, hj⟩).topic
        = (generate_topic_ideas theme d).getD j [] := by
  have hlen := generate_topic_ideas_length theme d (by omega)
  refine ⟨hlen, ?_, ?_⟩
  · rw [content_generator_node, contentEntries_length, hlen]
  · intro j hj
    have := contentEntries_get theme cc tsf gsf (generate_topic_ideas theme d) 1 j hj
    refine ⟨?_, this.2⟩
    show ((contentEntries theme cc tsf gsf 1 (generate_topic_ideas theme d)).get ⟨j, hj⟩).day
      = j + 1
    rw [this.1]
    omega

/-- Witness for C1 at `theme = "Fitness"`, `dayCount = 3`. -/
theorem C1_pipeline_full_length_witness :
    pyStrip (toL "Fitness") ≠ [] ∧ (1 : Int) ≤ 3 ∧
    ((generate_topic_ideas (toL "Fitness") 3).length = (3 : Int).toNat ∧
     (content_generator_node (generate_topic_ideas (toL "Fitness") 3) (toL "Fitness")
        (fun _ => 0) (fun _ => []) (fun _ => [])).length = (3 : Int).toNat ∧
     ∀ j (hj : j < (content_generator_node (generate_topic_ideas (toL "Fitness") 3) (toL "Fitness")
        (fun _ => 0) (fun _ => []) (fun _ => [])).length),
      ((content_generator_node (generate_topic_ideas (toL "Fitness") 3) (toL "Fitness")
        (fun _ => 0) (fun _ => []) (fun _ => [])).get ⟨j, hj⟩).day = j + 1 ∧
      ((content_generator_node (generate_topic_ideas (toL "Fitness") 3) (toL "Fitness")
        (fun _ => 0) (fun _ => []) (fun _ => [])).get ⟨j, hj⟩).topic
        = (generate_topic_ideas (toL "Fitness") 3).getD j []) :=
  ⟨by decide, by norm_num,
   C1_pipeline_full_length (toL "Fitness") 3 (fun _ => 0) (fun _ => []) (fun _ => [])
     (by decide) (by norm_num)⟩

/-! ## C4 -/

/-- C4 as stated is false: for a theme that classifies to a known category
and a negative day count, Python negative slicing returns a non-empty list
(here 20 topics for `("Fitness", -5)`), not the empty sequence. -/
theorem C4_counterexample :
    generate_topic_ideas (toL "Fitness") (-5) ≠ [] ∧
    (generate_topic_ideas (toL "Fitness") (-5)).length = 20 := by
  have h1 : findTheme (toL "Fitness") = some (toL "Fitness", fitnessTopics) := by decide
  have h2 : generate_topic_ideas (toL "Fitness") (-5)
      = pySlice (cycleExtend fitnessTopics (-5) (pySlice fitnessTopics (-5))) (-5) := by
    unfold generate_topic_ideas
    rw [h1]
  rw [h2, cycleExtend, dif_neg (by decide)]
  decide

/-- C4 (amended): `dayCount = 0` yields the empty sequence for every theme,
and a non-positive `dayCount` yields the empty sequence whenever the theme
does not classify to a known category; a classified theme with a negative
`dayCount` may instead return a non-empty slice of the pool. -/
theorem C4_amended (theme : Str) (d : Int)
    (h : d = 0 ∨ (d ≤ 0 ∧ findTheme theme = none)) :
    generate_topic_ideas theme d = [] := by
  rcases h with h0 | ⟨hle, hnone⟩
  · subst h0
    unfold generate_topic_ideas
    cases hft : findTheme theme with
    | none => simp
    | some kv =>
        show pySlice (cycleExtend kv.2 0 (pySlice kv.2 0)) 0 = []
        unfold pySlice
        simp
  · unfold generate_topic_ideas
    rw [hnone]
    have : d.toNat = 0 := by omega
    rw [this]
    simp

/-- Witness for C4 (amended) at `theme = "Fitness"`, `dayCount = 0`. -/
theorem C4_amended_witness :
    ((0 : Int) = 0 ∨ ((0 : Int) ≤ 0 ∧ findTheme (toL "Fitness") = none)) ∧
    generate_topic_ideas (toL "Fitness") 0 = [] :=
  ⟨Or.inl rfl, C4_amended (toL "Fitness") 0 (Or.inl rfl)⟩

/-! ## C3 -/

/-- A parsed JSON item counted as valid by the acceptance test: a JSON
string that is non-empty once stripped (stated independently of the
extraction loop, in the spec's vocabulary). -/
def isValidTopicItem : JsonItem → Bool
  | JsonItem.jstr s => !(pyStrip s).isEmpty
  | JsonItem.other => false

lemma cleanTopicsOf_length (numDays : Int) (items : List JsonItem) :
    (cleanTopicsOf numDays items).length
      = (pySlice items numDays).countP isValidTopicItem := by
  unfold cleanTopicsOf
  generalize pySlice items numDays = l
  induction l with
  | nil => rfl
  | cons it rest ih =>
      cases it with
      | jstr s =>
          by_cases h : 0 < (pyStrip s).length
          · have hv : isValidTopicItem (JsonItem.jstr s) = true := by
              unfold isValidTopicItem
              cases hs : pyStrip s with
              | nil => rw [hs] at h; simp at h
              | cons c cs => simp [hs]
            simp [List.filterMap_cons, List.countP_cons, h, hv, ih]
          · have hv : isValidTopicItem (JsonItem.jstr s) = false := by
              unfold isValidTopicItem
              cases hs : pyStrip s with
              | nil => simp [hs]
              | cons c cs => rw [hs] at h; simp at h
            simp [List.filterMap_cons, List.countP_cons, h, hv, ih]
      | other => simp [List.filterMap_cons, List.countP_cons, isValidTopicItem, ih]

/-- C3 as stated is false: with `dayCount = 7` a parsed list holding only 3
valid strings (3 < ceil(7/2) = 4) is nevertheless accepted — the code's
threshold is `7 // 2 = 3` — and the cleaned list, not the rule-based
sequence, is returned. -/
theorem C3_counterexample :
    ((pySlice [JsonItem.jstr (toL "a1"), JsonItem.jstr (toL "b2"), JsonItem.jstr (toL "c3")] (7 : Int)).countP
        isValidTopicItem : Int) < Int.fdiv (7 + 1) 2 ∧
    generate_topics_with_llm (toL "X") 7
        (some [JsonItem.jstr (toL "a1"), JsonItem.jstr (toL "b2"), JsonItem.jstr (toL "c3")])
      = toLs ["a1", "b2", "c3"] ∧
    generate_topics_with_llm (toL "X") 7
        (some [JsonItem.jstr (toL "a1"), JsonItem.jstr (toL "b2"), JsonItem.jstr (toL "c3")])
      ≠ generate_topic_ideas (toL "X") 7 := by
  refine ⟨by decide, by decide, ?_⟩
  intro hc
  have h1 : (generate_topics_with_llm (toL "X") 7
      (some [JsonItem.jstr (toL "a1"), JsonItem.jstr (toL "b2"), JsonItem.jstr (toL "c3")])).length = 3 := by
    decide
  have h2 : (generate_topic_ideas (toL "X") 7).length = 7 :=
    generate_topic_ideas_length _ _ (by norm_num)
  rw [hc, h2] at h1
  simp at h1

/-- C3 (amended): a parsed topic list is accepted iff at least
`floor(dayCount/2)` (Python `num_days // 2`) of its first `dayCount` items
are valid non-empty strings; on acceptance the cleaned list truncated to
`dayCount` is returned, otherwise the full rule-based sequence — never a
partial merge. -/
theorem C3_amended (theme : Str) (d : Int) (items : List JsonItem) :
    (Int.fdiv d 2 ≤ ((pySlice items d).countP isValidTopicItem : Int) →
      generate_topics_with_llm theme d (some items) = pySlice (cleanTopicsOf d items) d) ∧
    (((pySlice items d).countP isValidTopicItem : Int) < Int.fdiv d 2 →
      generate_topics_with_llm theme d (some items) = generate_topic_ideas theme d) := by
  have hred : generate_topics_with_llm theme d (some items)
      = if d.fdiv 2 ≤ ((cleanTopicsOf d items).length : Int)
        then pySlice (cleanTopicsOf d items) d
        else generate_topic_ideas theme d := rfl
  rw [hred, cleanTopicsOf_length]
  constructor
  · intro h
    rw [if_pos h]
  · intro h
    rw [if_neg (by omega)]

/-- Witness for C3 (amended): `dayCount = 4`, 2 of 2 parsed items valid,
threshold `4 // 2 = 2` met, cleaned list returned. -/
theorem C3_amended_witness :
    (Int.fdiv 4 2 ≤ ((pySlice [JsonItem.jstr (toL "t1"), JsonItem.jstr (toL "t2")] (4 : Int)).countP
        isValidTopicItem : Int)) ∧
    generate_topics_with_llm (toL "X") 4
        (some [JsonItem.jstr (toL "t1"), JsonItem.jstr (toL "t2")])
      = pySlice (cleanTopicsOf 4 [JsonItem.jstr (toL "t1"), JsonItem.jstr (toL "t2")]) 4 :=
  ⟨by decide,
   (C3_amended (toL "X") 4 [JsonItem.jstr (toL "t1"), JsonItem.jstr (toL "t2")]).1 (by decide)⟩

/-! ## C2 -/

/-- C2 as stated is false: with `dayCount = 10` and a model response parsed
to exactly 5 valid topics (5 >= 10 // 2), the enhanced pipeline returns a
content plan of length 5 — strictly between 0 and the requested 10, a
silent truncation below the requested day count. -/
theorem C2_counterexample :
    0 < (llm_generate_plan (toL "X") 10
          (some ((toLs ["t1", "t2", "t3", "t4", "t5"]).map JsonItem.jstr))
          (fun _ => []) (fun _ => []) (fun _ => 0) (fun _ => []) (fun _ => [])).length ∧
    (llm_generate_plan (toL "X") 10
          (some ((toLs ["t1", "t2", "t3", "t4", "t5"]).map JsonItem.jstr))
          (fun _ => []) (fun _ => []) (fun _ => 0) (fun _ => []) (fun _ => [])).length < 10 := by
  constructor <;> decide


/-- C2 (amended): for `dayCount >= 1` the enhanced pipeline's content plan
always has between `dayCount // 2` and `dayCount` entries; truncation
strictly below `dayCount` (though never below half of it) is possible when
the model-backed parse is accepted with fewer than `dayCount` topics. -/
theorem C2_amended (theme : Str) (d : Int) (parsed : Option (List JsonItem))
    (capResp hashResp : Nat → Str) (cc : Nat → Fin 12) (tsf gsf : Nat → List Str)
    (hd : 1 ≤ d) :
    (Int.fdiv d 2).toNat
      ≤ (llm_generate_plan theme d parsed capResp hashResp cc tsf gsf).length ∧
    (llm_generate_plan theme d parsed capResp hashResp cc tsf gsf).length ≤ d.toNat := by
  have hfd : Int.fdiv d 2 = d / 2 := Int.fdiv_eq_ediv d (by omega)
  have hplan : (llm_generate_plan theme d parsed capResp hashResp cc tsf gsf).length
      = (generate_topics_with_llm theme d parsed).length := by
    unfold llm_generate_plan
    exact llmContentEntries_length theme capResp hashResp cc tsf gsf _ 1
  rw [hplan, hfd]
  cases parsed with
  | none =>
      rw [show generate_topics_with_llm theme d none = generate_topic_ideas theme d from rfl]
      rw [generate_topic_ideas_length theme d (by omega)]
      omega
  | some items =>
      rw [show generate_topics_with_llm theme d (some items)
            = if d.fdiv 2 ≤ ((cleanTopicsOf d items).length : Int)
              then pySlice (cleanTopicsOf d items) d
              else generate_topic_ideas theme d from rfl]
      by_cases hacc : d.fdiv 2 ≤ ((cleanTopicsOf d items).length : Int)
      · rw [if_pos hacc, pySlice, if_pos (by omega : (0 : Int) ≤ d)]
        rw [hfd] at hacc
        simp only [List.length_take]
        omega
      · rw [if_neg hacc]
        rw [generate_topic_ideas_length theme d (by omega)]
        omega

/-- Witness for C2 (amended) at `theme = "X"`, `dayCount = 10`, the parse
accepted with 5 topics: the plan length 5 lies in `[10 // 2, 10]`. -/
theorem C2_amended_witness :
    (1 : Int) ≤ 10 ∧
    ((Int.fdiv 10 2).toNat
      ≤ (llm_generate_plan (toL "X") 10
          (some ((toLs ["t1", "t2", "t3", "t4", "t5"]).map JsonItem.jstr))
          (fun _ => []) (fun _ => []) (fun _ => 0) (fun _ => []) (fun _ => [])).length ∧
     (llm_generate_plan (toL "X") 10
          (some ((toLs ["t1", "t2", "t3", "t4", "t5"]).map JsonItem.jstr))
          (fun _ => []) (fun _ => []) (fun _ => 0) (fun _ => []) (fun _ => [])).length
        ≤ (10 : Int).toNat) :=
  ⟨by norm_num,
   C2_amended (toL "X") 10 (some ((toLs ["t1", "t2", "t3", "t4", "t5"]).map JsonItem.jstr))
     (fun _ => []) (fun _ => []) (fun _ => 0) (fun _ => []) (fun _ => []) (by norm_num)⟩

/-! ## C7 -/

/-- The known theme categories, in the classifier's fixed enumeration
order. -/
inductive ThemeCategory where
  | Fitness
  | Mental
  | Business
  | Technology
deriving Repr, DecidableEq

/-- The category's name as written in the `themes` dictionary keys. -/
def categoryName : ThemeCategory → Str
  | ThemeCategory.Fitness => toL "Fitness"
  | ThemeCategory.Mental => toL "Mental"
  | ThemeCategory.Business => toL "Business"
  | ThemeCategory.Technology => toL "Technology"

/-- Spec-side classifier, stated from the spec's words: the first category,
in the fixed order Fitness, Mental, Business, Technology, whose name occurs
case-insensitively as a substring of the input, else none. -/
def classifierSpec (theme : Str) : Option ThemeCategory :=
  if pyContains (pyLower theme) (pyLower (toL "Fitness")) then some ThemeCategory.Fitness
  else if pyContains (pyLower theme) (pyLower (toL "Mental")) then some ThemeCategory.Mental
  else if pyContains (pyLower theme) (pyLower (toL "Business")) then some ThemeCategory.Business
  else if pyContains (pyLower theme) (pyLower (toL "Technology")) then some ThemeCategory.Technology
  else none

/-- C7: the classification step of `generate_topic_ideas` agrees with the
spec's classifier on every theme — the first category in the order Fitness,
Mental, Business, Technology whose lower-cased name is a substring of the
lower-cased input, else none.  (Both sides are pure functions, so
determinism and absence of side effects hold by construction.) -/
theorem C7_classifier_refines_spec (theme : Str) :
    (findTheme theme).map Prod.fst = (classifierSpec theme).map categoryName := by
  cases h1 : pyContains (pyLower theme) (pyLower (toL "Fitness")) <;>
  cases h2 : pyContains (pyLower theme) (pyLower (toL "Mental")) <;>
  cases h3 : pyContains (pyLower theme) (pyLower (toL "Business")) <;>
  cases h4 : pyContains (pyLower theme) (pyLower (toL "Technology")) <;>
  simp [findTheme, themesMap, List.find?, classifierSpec, categoryName, h1, h2, h3, h4]

/-! ## C5 -/

lemma cycleExtend_getD (pool : List Str) (d : Int) (hp : 0 < pool.length)
    (topics : List Str)
    (hdisj : pool.length ∣ topics.length ∨ d ≤ (topics.length : Int))
    (helem : ∀ j, j < topics.length → topics.getD j [] = pool.getD (j % pool.length) []) :
    ∀ j, j < (cycleExtend pool d topics).length →
      (cycleExtend pool d topics).getD j [] = pool.getD (j % pool.length) [] := by
  revert hdisj helem
  refine cycleExtend.induct pool d
    (fun ts => (pool.length ∣ ts.length ∨ d ≤ (ts.length : Int)) →
      (∀ j, j < ts.length → ts.getD j [] = pool.getD (j % pool.length) []) →
      ∀ j, j < (cycleExtend pool d ts).length →
        (cycleExtend pool d ts).getD j [] = pool.getD (j % pool.length) []) ?_ ?_ topics
  · intro x hx ih hdisj helem
    rw [cycleExtend, dif_pos hx]
    have hlt : (x.length : Int) < d := hx.1
    have hdvd : pool.length ∣ x.length := by
      rcases hdisj with h | h
      · exact h
      · omega
    have hr : (0 : Int) ≤ d - x.length := by omega
    have hslice : pySlice pool (d - x.length) = pool.take (d - (x.length : Int)).toNat := by
      rw [pySlice, if_pos hr]
    have hlen' : (x ++ pySlice pool (d - x.length)).length
        = x.length + min (d - (x.length : Int)).toNat pool.length := by
      rw [hslice]
      simp [List.length_take]
    refine ih ?_ ?_
    · by_cases hcase : (d - (x.length : Int)).toNat ≤ pool.length
      · right
        rw [hlen']
        omega
      · left
        rw [hlen']
        have : min (d - (x.length : Int)).toNat pool.length = pool.length := by omega
        rw [this]
        exact dvd_add hdvd dvd_rfl
    · intro j hj
      rw [hlen'] at hj
      by_cases hjx : j < x.length
      · rw [List.getD_append _ _ _ _ hjx]
        exact helem j hjx
      · have hjge : x.length ≤ j := by omega
        rw [List.getD_append_right _ _ _ _ hjge]
        have hk : j - x.length < min (d - (x.length : Int)).toNat pool.length := by omega
        have hkp : j - x.length < pool.length := by omega
        have hkt : j - x.length < (pool.take (d - (x.length : Int)).toNat).length := by
          simp [List.length_take]
          omega
        rw [hslice, List.getD_eq_getElem _ _ hkt, List.getElem_take]
        rw [← List.getD_eq_getElem _ _ hkp]
        have hmod : j % pool.length = j - x.length := by
          obtain ⟨k, hk'⟩ := hdvd
          have h2 : j = pool.length * k + (j - x.length) := by omega
          calc j % pool.length
              = (pool.length * k + (j - x.length)) % pool.length := by rw [← h2]
            _ = (j - x.length) % pool.length := by rw [Nat.mul_add_mod]
            _ = j - x.length := Nat.mod_eq_of_lt hkp
        rw [hmod]
  · intro x hx hdisj helem j hj
    rw [cycleExtend, dif_neg hx] at hj ⊢
    exact helem j hj

/-- C5: for a theme classified to a known category and a day count larger
than the category pool, the sequencer cycles the pool from its start:
topic `j` equals `pool[j mod poolSize]` for every index of the result. -/
theorem C5_wraparound (theme : Str) (d : Int) (kv : Str × List Str)
    (hf : findTheme theme = some kv) (hd : (kv.2.length : Int) < d) :
    ∀ j, j < (generate_topic_ideas theme d).length →
      (generate_topic_ideas theme d).getD j [] = kv.2.getD (j % kv.2.length) [] := by
  have hmem := List.mem_of_find?_eq_some hf
  have h30 : kv.2.length = 30 := themesMap_pool_length hmem
  have hp : 0 < kv.2.length := by omega
  have hinit : pySlice kv.2 d = kv.2 := by
    rw [pySlice, if_pos (by omega)]
    exact List.take_of_length_le (by omega)
  have hgen : generate_topic_ideas theme d
      = pySlice (cycleExtend kv.2 d (pySlice kv.2 d)) d := by
    unfold generate_topic_ideas
    rw [hf]
  intro j hj
  rw [hgen] at hj ⊢
  rw [pySlice, if_pos (by omega)] at hj ⊢
  have hj' : j < (cycleExtend kv.2 d (pySlice kv.2 d)).length := by
    rw [List.length_take] at hj
    omega
  rw [List.getD_eq_getElem _ _ hj, List.getElem_take,
      ← List.getD_eq_getElem _ _ hj']
  refine cycleExtend_getD kv.2 d hp (pySlice kv.2 d) ?_ ?_ j hj'
  · left
    rw [hinit]
  · intro i hi
    rw [hinit] at hi ⊢
    rw [Nat.mod_eq_of_lt hi]

/-- Witness for C5: `"Business"` with 35 days; in particular topic 31
(index 30) equals topic 1 of the pool (wrap-around). -/
theorem C5_wraparound_witness :
    findTheme (toL "Business") = some (toL "Business", businessTopics) ∧
    ((businessTopics.length : Int) < 35) ∧
    (∀ j, j < (generate_topic_ideas (toL "Business") 35).length →
      (generate_topic_ideas (toL "Business") 35).getD j []
        = businessTopics.getD (j % businessTopics.length) []) :=
  ⟨by decide, by decide,
   C5_wraparound (toL "Business") 35 (toL "Business", businessTopics) (by decide) (by decide)⟩

/-! ## C8 -/

lemma isPrefixOf_append_self : ∀ (b c : Str), List.isPrefixOf b (b ++ c) = true := by
  intro b c
  induction b with
  | nil => simp
  | cons x xs ih => simp [List.isPrefixOf_cons₂, ih]

lemma pyContains_here (b c : Str) : pyContains (b ++ c) b = true := by
  cases b with
  | nil =>
      rw [List.nil_append]
      cases c with
      | nil => decide
      | cons y ys =>
          show (List.isPrefixOf [] (y :: ys) || _) = true
          simp
  | cons x xs =>
      show (List.isPrefixOf (x :: xs) (x :: (xs ++ c)) || _) = true
      have := isPrefixOf_append_self (x :: xs) c
      rw [List.cons_append] at this
      simp [this]

lemma pyContains_there (a hay needle : Str) (h : pyContains hay needle = true) :
    pyContains (a ++ hay) needle = true := by
  induction a with
  | nil => simpa
  | cons x xs ih =>
      show (List.isPrefixOf needle (x :: (xs ++ hay)) || pyContains (xs ++ hay) needle) = true
      rw [ih, Bool.or_true]

/-- C8 as stated is false: template index 3 interpolates the theme with
spaces removed and original casing, not the lower-cased theme, so for
`theme = "Fitness Pro"` the caption contains `"FitnessPro"` but not the
lower-cased theme `"fitness pro"`. -/
theorem C8_counterexample :
    pyContains (generate_caption (toL "X") (toL "Fitness Pro") 3) (toL "X") = true ∧
    pyContains (generate_caption (toL "X") (toL "Fitness Pro") 3)
      (pyLower (toL "Fitness Pro")) = false := by
  constructor <;> decide

/-- C8 (amended): every caption is non-empty and contains the topic
verbatim for every random template choice; all templates except index 3
also contain the lower-cased theme (index 3 instead embeds the theme with
spaces removed, in its original casing). -/
theorem C8_amended (topic theme : Str) (c : Fin 12) :
    generate_caption topic theme c ≠ [] ∧
    pyContains (generate_caption topic theme c) topic = true ∧
    (c ≠ 3 → pyContains (generate_caption topic theme c) (pyLower theme) = true) := by
  fin_cases c <;>
    refine ⟨?_, ?_, ?_⟩ <;>
    simp only [generate_caption, captionTemplate, List.append_assoc] <;>
    first
      | (apply List.append_ne_nil_of_left_ne_nil
         decide)
      | (intro hc
         exact absurd (by decide) hc)
      | (intro _
         (repeat first
           | exact pyContains_here _ _
           | apply pyContains_there)
         done)
      | ((repeat first
           | exact pyContains_here _ _
           | apply pyContains_there)
         done)

/-- Witness for C8 (amended): template 0 with a concrete topic and theme
contains the lower-cased theme. -/
theorem C8_amended_witness :
    generate_caption (toL "Desk Yoga") (toL "Fitness") 0 ≠ [] ∧
    pyContains (generate_caption (toL "Desk Yoga") (toL "Fitness")
      0) (toL "Desk Yoga") = true ∧
    pyContains (generate_caption (toL "Desk Yoga") (toL "Fitness") 0)
      (pyLower (toL "Fitness")) = true := by
  obtain ⟨h1, h2, h3⟩ := C8_amended (toL "Desk Yoga") (toL "Fitness") 0
  exact ⟨h1, h2, h3 (by decide)⟩

/-! ## C9 -/

/-- The acceptance test the model-backed caption operation actually
applies: the whitespace-stripped response is non-empty and longer than 10
characters, judged BEFORE hashtag-token stripping. -/
def llmCaptionAccepts (responseText : Str) : Bool :=
  !(pyStrip responseText).isEmpty && decide (10 < (pyStrip responseText).length)

/-- C9 as stated is false: the length test runs before hashtag-stripping,
so a response of only hashtag tokens (17 characters) is accepted and the
returned caption is empty — the claim would require the rule-based
fallback to be substituted, since after stripping the caption is empty
(and not longer than 10 characters). -/
theorem C9_counterexample :
    generate_caption_with_llm (toL "#aaaa #bbbb #cccc") (toL "RULE BASED") = [] ∧
    toL "RULE BASED" ≠ ([] : Str) := by
  constructor <;> decide

/-- C9 (amended): a model caption response is accepted iff the
whitespace-stripped response is non-empty and longer than 10 characters
before hashtag-stripping; on acceptance the returned caption is the
response with every whitespace-delimited `#`-token removed (possibly
empty), otherwise the rule-based caption is substituted. -/
theorem C9_amended (resp fb : Str) :
    generate_caption_with_llm resp fb
      = if llmCaptionAccepts resp
        then joinSpace ((pyWords (pyStrip resp)).filter (fun w => !startsHash w))
        else fb := by
  unfold generate_caption_with_llm llmCaptionAccepts
  by_cases h : pyStrip resp ≠ [] ∧ 10 < (pyStrip resp).length
  · rw [if_pos h]
    have hb : (!(pyStrip resp).isEmpty && decide (10 < (pyStrip resp).length)) = true := by
      simp [List.isEmpty_iff, h.1, h.2]
    rw [hb, if_pos rfl]
  · rw [if_neg h]
    have hb : (!(pyStrip resp).isEmpty && decide (10 < (pyStrip resp).length)) = false := by
      rcases not_and_or.mp h with h1 | h2
      · have : pyStrip resp = [] := by
          by_contra hc
          exact h1 hc
        simp [this]
      · simp [List.isEmpty_iff, h2]
    rw [hb]
    simp

/-! ## C6 and C10: helper lemmas -/

lemma asciiUpper_ne_space {c : Char} (h : c ≠ ' ') : asciiUpper c ≠ ' ' := by
  unfold asciiUpper
  split <;> first | decide | exact h | simp_all

lemma asciiLower_ne_space {c : Char} (h : c ≠ ' ') : asciiLower c ≠ ' ' := by
  unfold asciiLower
  split <;> first | decide | exact h | simp_all

lemma pyWordsAux_no_white :
    ∀ (s acc : Str), (∀ c ∈ acc, c.isWhitespace = false) →
      ∀ w ∈ pyWordsAux s acc, ∀ c ∈ w, c.isWhitespace = false := by
  intro s
  induction s with
  | nil =>
      intro acc hacc w hw
      unfold pyWordsAux at hw
      by_cases ha : acc = []
      · rw [if_pos ha] at hw
        simp at hw
      · rw [if_neg ha] at hw
        simp at hw
        subst hw
        exact hacc
  | cons c cs ih =>
      intro acc hacc w hw
      unfold pyWordsAux at hw
      by_cases hc : c.isWhitespace
      · rw [if_pos hc] at hw
        by_cases ha : acc = []
        · rw [if_pos ha] at hw
          exact ih [] (by simp) w hw
        · rw [if_neg ha] at hw
          rcases List.mem_cons.mp hw with h | h
          · subst h
            exact hacc
          · exact ih [] (by simp) w h
      · rw [if_neg hc] at hw
        refine ih (acc ++ [c]) ?_ w hw
        intro x hx
        rcases List.mem_append.mp hx with h | h
        · exact hacc x h
        · simp at h
          subst h
          simpa using hc

lemma pyWords_no_space (s : Str) : ∀ w ∈ pyWords s, ' ' ∉ w := by
  intro w hw hsp
  have := pyWordsAux_no_white s [] (by simp) w hw ' ' hsp
  simp [Char.isWhitespace] at this

lemma pyCapitalize_no_space {w : Str} (h : ' ' ∉ w) : ' ' ∉ pyCapitalize w := by
  cases w with
  | nil => simp [pyCapitalize]
  | cons c cs =>
      unfold pyCapitalize
      intro hmem
      rcases List.mem_cons.mp hmem with hh | hh
      · exact asciiUpper_ne_space (fun hc => h (by simp [hc])) hh.symm
      · rcases List.mem_map.mp hh with ⟨x, hx, hx'⟩
        have hxne : x ≠ ' ' := by
          intro hc
          subst hc
          exact h (List.mem_cons_of_mem c hx)
        exact asciiLower_ne_space hxne hx'

lemma mem_dedupFirstAux :
    ∀ (l seen : List Str) (x : Str), x ∈ l → x ∉ seen → x ∈ dedupFirstAux l seen := by
  intro l
  induction l with
  | nil => intro seen x hx; simp at hx
  | cons a l' ih =>
      intro seen x hx hxs
      unfold dedupFirstAux
      by_cases ha : a ∈ seen
      · rw [if_pos ha]
        rcases List.mem_cons.mp hx with h | h
        · exact absurd (h ▸ ha) hxs
        · exact ih seen x h hxs
      · rw [if_neg ha]
        by_cases hxa : x = a
        · subst hxa
          exact List.mem_cons_self x _
        · rcases List.mem_cons.mp hx with h | h
          · exact absurd h hxa
          · exact List.mem_cons_of_mem a (ih (a :: seen) x h (by
              intro hc
              rcases List.mem_cons.mp hc with h' | h'
              · exact hxa h'
              · exact hxs h'))

lemma dedupFirstAux_sound :
    ∀ (l seen : List Str),
      (dedupFirstAux l seen).Nodup ∧
      (∀ x ∈ dedupFirstAux l seen, x ∉ seen ∧ x ∈ l) := by
  intro l
  induction l with
  | nil => intro seen; constructor <;> simp [dedupFirstAux]
  | cons a l' ih =>
      intro seen
      unfold dedupFirstAux
      by_cases ha : a ∈ seen
      · rw [if_pos ha]
        refine ⟨(ih seen).1, ?_⟩
        intro x hx
        exact ⟨((ih seen).2 x hx).1, List.mem_cons_of_mem a ((ih seen).2 x hx).2⟩
      · rw [if_neg ha]
        refine ⟨List.nodup_cons.mpr ⟨?_, (ih (a :: seen)).1⟩, ?_⟩
        · intro hc
          have := ((ih (a :: seen)).2 a hc).1
          exact this (List.mem_cons_self a seen)
        · intro x hx
          rcases List.mem_cons.mp hx with h | h
          · subst h
            exact ⟨ha, List.mem_cons_self x l'⟩
          · have := (ih (a :: seen)).2 x h
            exact ⟨fun hc => this.1 (List.mem_cons_of_mem a hc),
                   List.mem_cons_of_mem a this.2⟩

lemma two_le_length_of_mem_ne {x y : Str} {l : List Str}
    (hx : x ∈ l) (hy : y ∈ l) (hxy : x ≠ y) : 2 ≤ l.length := by
  cases l with
  | nil => simp at hx
  | cons a l' =>
      cases l' with
      | nil =>
          simp at hx hy
          exact absurd (hx.trans hy.symm) hxy
      | cons b l'' => simp [List.length_cons]

/-- The `hashtags` list of `generate_hashtags` just before prefixing,
filtering, deduplication and truncation. -/
def hashtagRawList (topic theme : Str) (ts gs : List Str) : List Str :=
  [theme.filter (fun c => c ≠ ' ')] ++
    (if (topicCleanOf topic).length ≤ 20 then [topicCleanOf topic] else []) ++
    (match findHashtagPool theme with
      | some _ => ts
      | none => []) ++ gs

/-- The deduplicated `#`-token list of `generate_hashtags` before the
5-token truncation. -/
def hashtagUnique (topic theme : Str) (ts gs : List Str) : List Str :=
  dedupFirst (((hashtagRawList topic theme ts gs).filter
    (fun tag => tag ≠ [] ∧ 2 < tag.length)).map (fun tag => '#' :: tag))

lemma generate_hashtags_eq (topic theme : Str) (ts gs : List Str) :
    generate_hashtags topic theme ts gs
      = joinSpace ((hashtagUnique topic theme ts gs).take 5) := rfl

lemma generalHashtags_facts : ∀ g ∈ generalHashtags, ' ' ∉ g ∧ 2 < g.length := by
  decide

lemma themePools_no_space : ∀ kv ∈ themeHashtagPools, ∀ x ∈ kv.2, ' ' ∉ x := by
  decide

lemma topicCleanOf_no_space (topic : Str) : ' ' ∉ topicCleanOf topic := by
  intro hsp
  unfold topicCleanOf at hsp
  rcases List.mem_flatten.mp hsp with ⟨w', hw', hsp'⟩
  rcases List.mem_map.mp hw' with ⟨w, hw, rfl⟩
  exact pyCapitalize_no_space (pyWords_no_space _ w hw) hsp'

lemma rawList_no_space (topic theme : Str) (ts gs : List Str)
    (hts : ∀ kv, findHashtagPool theme = some kv → ∀ x ∈ ts, x ∈ kv.2)
    (hgs : ∀ g ∈ gs, g ∈ generalHashtags) :
    ∀ x ∈ hashtagRawList topic theme ts gs, ' ' ∉ x := by
  intro x hx
  unfold hashtagRawList at hx
  rcases List.mem_append.mp hx with hx1 | hxg
  · rcases List.mem_append.mp hx1 with hx2 | hxm
    · rcases List.mem_append.mp hx2 with hxt | hxc
      · simp at hxt
        subst hxt
        intro hsp
        have := List.mem_filter.mp hsp
        simp at this
      · by_cases hlen : (topicCleanOf topic).length ≤ 20
        · rw [if_pos hlen] at hxc
          simp at hxc
          subst hxc
          exact topicCleanOf_no_space topic
        · rw [if_neg hlen] at hxc
          simp at hxc
    · cases hfp : findHashtagPool theme with
      | none => rw [hfp] at hxm; simp at hxm
      | some kv =>
          rw [hfp] at hxm
          have hkv : kv ∈ themeHashtagPools := List.mem_of_find?_eq_some hfp
          exact themePools_no_space kv hkv x (hts kv hfp x hxm)
  · exact (generalHashtags_facts x (hgs x hxg)).1

lemma hashtagUnique_tokens (topic theme : Str) (ts gs : List Str)
    (hts : ∀ kv, findHashtagPool theme = some kv → ∀ x ∈ ts, x ∈ kv.2)
    (hgs : ∀ g ∈ gs, g ∈ generalHashtags) :
    ∀ t ∈ hashtagUnique topic theme ts gs,
      (∃ b, t = '#' :: b ∧ 2 < b.length ∧ ' ' ∉ b) := by
  intro t ht
  unfold hashtagUnique dedupFirst at ht
  have hmem := ((dedupFirstAux_sound _ []).2 t ht).2
  rcases List.mem_map.mp hmem with ⟨b, hb, rfl⟩
  have hbf := List.mem_filter.mp hb
  refine ⟨b, rfl, ?_, ?_⟩
  · have := hbf.2
    simp at this
    exact this.2
  · exact rawList_no_space topic theme ts gs hts hgs b hbf.1

lemma hashtagUnique_nodup (topic theme : Str) (ts gs : List Str) :
    (hashtagUnique topic theme ts gs).Nodup :=
  (dedupFirstAux_sound _ []).1

lemma mem_hashtagUnique_of_gen (topic theme : Str) (ts gs : List Str)
    {g : Str} (hg : g ∈ gs) (hgen : g ∈ generalHashtags) :
    ('#' :: g) ∈ hashtagUnique topic theme ts gs := by
  unfold hashtagUnique dedupFirst
  apply mem_dedupFirstAux _ _ _ _ (by simp)
  apply List.mem_map_of_mem
  apply List.mem_filter.mpr
  refine ⟨?_, ?_⟩
  · unfold hashtagRawList
    exact List.mem_append.mpr (Or.inr hg)
  · have := (generalHashtags_facts g hgen).2
    simp
    constructor
    · intro hc
      rw [hc] at this
      simp at this
    · exact this

lemma splitSpace_joinSpace (ws : List Str) (hne : ws ≠ [])
    (hw : ∀ w ∈ ws, ' ' ∉ w) : splitSpace (joinSpace ws) = ws := by
  unfold splitSpace joinSpace
  exact List.splitOn_intercalate ws ' ' hw hne

lemma generate_hashtags_splitSpace (topic theme : Str) (ts gs : List Str)
    (hts : ∀ kv, findHashtagPool theme = some kv → ∀ x ∈ ts, x ∈ kv.2)
    (hgs : ∀ g ∈ gs, g ∈ generalHashtags) (hgne : gs ≠ []) :
    splitSpace (generate_hashtags topic theme ts gs)
      = (hashtagUnique topic theme ts gs).take 5 := by
  rcases List.exists_mem_of_ne_nil gs hgne with ⟨g, hg⟩
  have hgmem := mem_hashtagUnique_of_gen topic theme ts gs hg (hgs g hg)
  rw [generate_hashtags_eq]
  apply splitSpace_joinSpace
  · intro hc
    rcases List.take_eq_nil_iff.mp hc with h | h
    · simp at h
    · exact List.ne_nil_of_mem hgmem h
  · intro w hw
    have hw' : w ∈ hashtagUnique topic theme ts gs :=
      (List.take_sublist 5 _).subset hw
    rcases hashtagUnique_tokens topic theme ts gs hts hgs w hw' with ⟨b, rfl, _, hbns⟩
    intro hsp
    rcases List.mem_cons.mp hsp with h | h
    · exact absurd h.symm (by decide)
    · exact hbns h

/-! ## C6 -/

/-- C6: for every `(topic, theme)` and every draw the random sampler can
produce, the hashtag output split on spaces contains between 1 and 5
tokens, every token starts with `#`, no token occurs twice, and every
token's body after the `#` is longer than 2 characters. -/
theorem C6_hashtag_contract (topic theme : Str) (ts gs : List Str)
    (hgsLen : gs.length = 2) (hgsNd : gs.Nodup)
    (hgsMem : ∀ g ∈ gs, g ∈ generalHashtags)
    (hts : ∀ kv, findHashtagPool theme = some kv →
      ts.Nodup ∧ ts.length = min 2 kv.2.length ∧ ∀ x ∈ ts, x ∈ kv.2) :
    1 ≤ (splitSpace (generate_hashtags topic theme ts gs)).length ∧
    (splitSpace (generate_hashtags topic theme ts gs)).length ≤ 5 ∧
    (splitSpace (generate_hashtags topic theme ts gs)).Nodup ∧
    ∀ t ∈ splitSpace (generate_hashtags topic theme ts gs),
      ∃ b, t = '#' :: b ∧ 2 < b.length := by
  have hts' : ∀ kv, findHashtagPool theme = some kv → ∀ x ∈ ts, x ∈ kv.2 :=
    fun kv h => (hts kv h).2.2
  have hgne : gs ≠ [] := by
    intro hc
    rw [hc] at hgsLen
    simp at hgsLen
  have heq := generate_hashtags_splitSpace topic theme ts gs hts' hgsMem hgne
  rw [heq]
  rcases List.exists_mem_of_ne_nil gs hgne with ⟨g, hg⟩
  have hgmem := mem_hashtagUnique_of_gen topic theme ts gs hg (hgsMem g hg)
  have hUpos : 0 < (hashtagUnique topic theme ts gs).length :=
    List.length_pos.mpr (List.ne_nil_of_mem hgmem)
  refine ⟨?_, ?_, ?_, ?_⟩
  · rw [List.length_take]
    omega
  · rw [List.length_take]
    omega
  · exact List.Nodup.sublist (List.take_sublist 5 _) (hashtagUnique_nodup topic theme ts gs)
  · intro t ht
    have ht' := (List.take_sublist 5 _).subset ht
    rcases hashtagUnique_tokens topic theme ts gs hts' hgsMem t ht' with ⟨b, rfl, hb, _⟩
    exact ⟨b, rfl, hb⟩

/-- Witness for C6 at an unclassified theme with the generic sample
`["Motivation", "Tips"]`. -/
theorem C6_hashtag_contract_witness :
    ((toLs ["Motivation", "Tips"]).length = 2 ∧ (toLs ["Motivation", "Tips"]).Nodup ∧
      (∀ g ∈ toLs ["Motivation", "Tips"], g ∈ generalHashtags)) ∧
    (1 ≤ (splitSpace (generate_hashtags (toL "Pasta") (toL "Cooking") []
            (toLs ["Motivation", "Tips"]))).length ∧
     (splitSpace (generate_hashtags (toL "Pasta") (toL "Cooking") []
            (toLs ["Motivation", "Tips"]))).length ≤ 5 ∧
     (splitSpace (generate_hashtags (toL "Pasta") (toL "Cooking") []
            (toLs ["Motivation", "Tips"]))).Nodup ∧
     ∀ t ∈ splitSpace (generate_hashtags (toL "Pasta") (toL "Cooking") []
            (toLs ["Motivation", "Tips"])),
        ∃ b, t = '#' :: b ∧ 2 < b.length) := by
  refine ⟨⟨by decide, by decide, by decide⟩, ?_⟩
  refine C6_hashtag_contract (toL "Pasta") (toL "Cooking") [] (toLs ["Motivation", "Tips"])
    (by decide) (by decide) (by decide) ?_
  intro kv h
  rw [show findHashtagPool (toL "Cooking") = none from by decide] at h
  exact Option.noConfusion h

/-! ## C10 -/

/-- C10 as stated is false in its survival clause: with theme `"Fitness"`,
topic `"Desk Yoga Poses"` and samples `["FitnessMotivation",
"HealthyLifestyle"]` (theme pool) and `["Motivation", "Tips"]` (generic
pool), six distinct candidate tokens reach the 5-token truncation and the
second sampled generic token `#Tips` is cut: it does not survive the
truncation, even though the output still has (exactly) 5 >= 2 tokens. -/
theorem C10_counterexample :
    ((toLs ["Motivation", "Tips"]).Nodup ∧
      (∀ g ∈ toLs ["Motivation", "Tips"], g ∈ generalHashtags) ∧
      findHashtagPool (toL "Fitness")
        = some (toL "fitness",
            toLs ["FitnessMotivation", "HealthyLifestyle", "WorkoutTips",
                  "FitLife", "HealthyHabits", "WellnessJourney"]) ∧
      (∀ x ∈ toLs ["FitnessMotivation", "HealthyLifestyle"],
        x ∈ toLs ["FitnessMotivation", "HealthyLifestyle", "WorkoutTips",
                  "FitLife", "HealthyHabits", "WellnessJourney"])) ∧
    toL "#Tips" ∉ splitSpace (generate_hashtags (toL "Desk Yoga Poses") (toL "Fitness")
        (toLs ["FitnessMotivation", "HealthyLifestyle"]) (toLs ["Motivation", "Tips"])) ∧
    (splitSpace (generate_hashtags (toL "Desk Yoga Poses") (toL "Fitness")
        (toLs ["FitnessMotivation", "HealthyLifestyle"]) (toLs ["Motivation", "Tips"]))).length
      = 5 := by
  exact ⟨⟨by decide, by decide, by decide, by decide⟩, by decide, by decide⟩

/-- C10 (amended): the hashtag output always contains at least 2 tokens —
the two distinct sampled generic tokens survive the length filter, and
deduplication keeps two distinct tokens, so at least two enter the 5-token
truncation, which keeps at least 2; however a sampled generic token itself
can be cut by the truncation when more than 5 distinct candidates exist. -/
theorem C10_amended (topic theme : Str) (ts gs : List Str)
    (hgsLen : gs.length = 2) (hgsNd : gs.Nodup)
    (hgsMem : ∀ g ∈ gs, g ∈ generalHashtags)
    (hts : ∀ kv, findHashtagPool theme = some kv → ∀ x ∈ ts, x ∈ kv.2) :
    2 ≤ (splitSpace (generate_hashtags topic theme ts gs)).length := by
  cases gs with
  | nil => simp at hgsLen
  | cons g1 rest =>
      cases rest with
      | nil => simp at hgsLen
      | cons g2 rest2 =>
          have hrest2 : rest2 = [] := by
            simp at hgsLen
            exact hgsLen
          subst hrest2
          have hne12 : g1 ≠ g2 := by
            rcases List.nodup_cons.mp hgsNd with ⟨hn, _⟩
            intro hc
            exact hn (by simp [hc])
          have hg1 : g1 ∈ [g1, g2] := by simp
          have hg2 : g2 ∈ [g1, g2] := by simp
          have h1 := mem_hashtagUnique_of_gen topic theme ts [g1, g2] hg1 (hgsMem g1 hg1)
          have h2 := mem_hashtagUnique_of_gen topic theme ts [g1, g2] hg2 (hgsMem g2 hg2)
          have hne : ('#' :: g1) ≠ ('#' :: g2) := by
            intro hc
            simp at hc
            exact hne12 hc
          have hU2 := two_le_length_of_mem_ne h1 h2 hne
          rw [generate_hashtags_splitSpace topic theme ts [g1, g2] hts hgsMem (by simp)]
          rw [List.length_take]
          omega

/-- Witness for C10 (amended) at an unclassified theme with the generic
sample `["Growth", "Goals"]`. -/
theorem C10_amended_witness :
    ((toLs ["Growth", "Goals"]).length = 2 ∧ (toLs ["Growth", "Goals"]).Nodup ∧
      (∀ g ∈ toLs ["Growth", "Goals"], g ∈ generalHashtags)) ∧
    2 ≤ (splitSpace (generate_hashtags (toL "Bread") (toL "Baking") []
          (toLs ["Growth", "Goals"]))).length := by
  refine ⟨⟨by decide, by decide, by decide⟩, ?_⟩
  refine C10_amended (toL "Bread") (toL "Baking") [] (toLs ["Growth", "Goals"])
    (by decide) (by decide) (by decide) ?_
  intro kv h
  rw [show findHashtagPool (toL "Baking") = none from by decide] at h
  exact Option.noConfusion h
